import Mathlib

/-!
# Verification of the EMV interop framework core

Shallow embedding, in Lean 4, of the core protocol machinery of the
`emv-interop-framework` repository:

* the BER-TLV codec (`TLVParser`, `TLVBuilder`, `DOLParser` from the
  TLV module shipped in the repository),
* the APDU command/response model (`core/apdu/apdu-handler.js`),
* the EMV transaction engine (`core/protocol/emv-engine.js`).

Conventions of the embedding:

* A Node.js `Buffer` is a `List Nat` whose elements are byte values.
  `buffer.slice(a, b)` is `(l.drop a).take (b - a)` (Node's `slice`
  clamps out-of-range bounds, as `List.drop`/`List.take` do);
  `Buffer.concat` is `++`.
* An out-of-bounds read `buffer[i]` yields `undefined` in JavaScript;
  in every bitwise context the code puts it in (`&`, `|`, `<<`) it
  coerces to `0`, which is modelled by `List.getD l i 0`.  Theorems
  below only ever evaluate the embedding on inputs where this
  modelling is exact.
* JavaScript 32-bit bitwise arithmetic coincides with `Nat` bitwise
  arithmetic for all values `< 2^31`; all inputs considered here stay
  far below that bound.
* `null` fields are `Option.none`.
-/

/-! ## TLV parser (class `TLVParser` of the TLV module) -/

/-- One decoded tag-length-value unit, as produced by `TLVParser.parseBuffer`.
The JavaScript object additionally carries `tagHex`, `valueHex` and `name`
annotations; they are pure re-renderings of `tag`/`value` (plus a lookup in
the static `EMV_TAGS` table) and are not part of the structural tree. -/
inductive TLVObject where
  | mk : Nat → Nat → List Nat → Bool → List TLVObject → TLVObject

/-- The `tag` field. -/
def TLVObject.tag : TLVObject → Nat
  | .mk t _ _ _ _ => t

/-- The `length` field. -/
def TLVObject.length : TLVObject → Nat
  | .mk _ n _ _ _ => n

/-- The `value` field. -/
def TLVObject.value : TLVObject → List Nat
  | .mk _ _ v _ _ => v

/-- The `constructed` field. -/
def TLVObject.constructed : TLVObject → Bool
  | .mk _ _ _ c _ => c

/-- The `children` field. -/
def TLVObject.children : TLVObject → List TLVObject
  | .mk _ _ _ _ cs => cs

namespace TLVParser

/-- The do-while loop of `TLVParser.parseTag`: keep consuming continuation
bytes while the byte just read has bit `0x80` set.  Returns the accumulated
tag and the number of bytes consumed by the loop.  On an exhausted buffer
the JavaScript reads `undefined`, shifts it in as `0` and stops. -/
def parseTagAux : List Nat → Nat → Nat × Nat
  | [], acc => (acc * 256, 1)
  | c :: rest, acc =>
    if c &&& 0x80 == 0x80 then
      let r := parseTagAux rest (acc * 256 + c)
      (r.1, r.2 + 1)
    else (acc * 256 + c, 1)

/-- `TLVParser.parseTag`: read the first tag byte; if its low five bits are
all set the tag continues into `parseTagAux`.  Returns `(tag, tagLength)`. -/
def parseTag : List Nat → Nat × Nat
  | [] => (0, 1)
  | b :: rest =>
    if b &&& 0x1F == 0x1F then
      let r := parseTagAux rest b
      (r.1, r.2 + 1)
    else (b, 1)

/-- The accumulation loop of the long form of `TLVParser.parseLength`:
`length = (length << 8) | buffer[offset + i]` for `i = 1..n`, an
out-of-range byte contributing `0`. -/
def readBEPad (l : List Nat) (n : Nat) : Nat :=
  (List.range n).foldl (fun acc i => acc * 256 + l.getD i 0) 0

/-- `TLVParser.parseLength`: short form if the high bit of the first length
byte is clear, otherwise its low seven bits count the big-endian length
bytes that follow.  Returns `(length, lengthBytes)`. -/
def parseLength : List Nat → Nat × Nat
  | [] => (0, 1)
  | b :: rest =>
    if b &&& 0x80 == 0 then (b, 1)
    else
      let n := b &&& 0x7F
      (readBEPad rest n, n + 1)

/-- `TLVParser.isConstructedTag`, verbatim: the byte tested is the whole tag
for one-byte tags and `(tag >> 8) & 0xFF` otherwise. -/
def isConstructedTag (tag : Nat) : Bool :=
  let firstByte := if tag > 0xFF then (tag >>> 8) &&& 0xFF else tag
  firstByte &&& 0x20 == 0x20

/-- The while loop of `TLVParser.parseBuffer`, with an explicit fuel
parameter to make the recursion structural.  Each iteration consumes at
least one byte and every recursive call (padding skip, children of a
constructed node, the bytes after a node) receives a strictly shorter
list, so fuel `≥` the buffer length never runs out; `parseBufferF_irrel`
below proves the fuel irrelevant on that domain. -/
def parseBufferF : Nat → List Nat → List TLVObject
  | 0, _ => []
  | _ + 1, [] => []
  | fuel + 1, b :: rest =>
    if b == 0x00 || b == 0xFF then parseBufferF fuel rest
    else
      let l := b :: rest
      let tg := parseTag l
      let afterTag := l.drop tg.2
      let ln := parseLength afterTag
      let afterLen := afterTag.drop ln.2
      let value := afterLen.take ln.1
      let remaining := afterLen.drop ln.1
      let c := isConstructedTag tg.1
      TLVObject.mk tg.1 ln.1 value c
        (if c then parseBufferF fuel value else [])
        :: parseBufferF fuel remaining

/-- `TLVParser.parse` / `TLVParser.parseBuffer(buffer, 0, buffer.length)`:
the engine always calls it with the whole buffer (children recurse on the
value slice with its own indices). -/
def parse (l : List Nat) : List TLVObject := parseBufferF l.length l

theorem parseTagAux_pos (l : List Nat) (acc : Nat) : 1 ≤ (parseTagAux l acc).2 := by
  cases l with
  | nil => simp [parseTagAux]
  | cons c rest =>
    simp only [parseTagAux]
    split <;> simp

theorem parseTag_pos (l : List Nat) : 1 ≤ (parseTag l).2 := by
  cases l with
  | nil => simp [parseTag]
  | cons b rest =>
    simp only [parseTag]
    split <;> simp

theorem parseLength_pos (l : List Nat) : 1 ≤ (parseLength l).2 := by
  cases l with
  | nil => simp [parseLength]
  | cons b rest =>
    simp only [parseLength]
    split <;> simp

/-- Fuel irrelevance: any fuel at least the buffer length gives the same
result, so `parse` computes the full fixpoint of the source's while loop. -/
theorem parseBufferF_irrel (fuel₁ : Nat) : ∀ (fuel₂ : Nat) (l : List Nat),
    l.length ≤ fuel₁ → l.length ≤ fuel₂ →
    parseBufferF fuel₁ l = parseBufferF fuel₂ l := by
  induction fuel₁ with
  | zero =>
    intro fuel₂ l h₁ _
    have : l = [] := List.length_eq_zero.mp (Nat.le_zero.mp h₁)
    subst this
    cases fuel₂ <;> simp [parseBufferF]
  | succ f₁ ih =>
    intro fuel₂ l h₁ h₂
    cases l with
    | nil => cases fuel₂ <;> simp [parseBufferF]
    | cons b rest =>
      cases fuel₂ with
      | zero => simp at h₂
      | succ f₂ =>
        simp only [List.length_cons, Nat.succ_le_succ_iff] at h₁ h₂
        simp only [parseBufferF]
        have hat : ((b :: rest).drop (parseTag (b :: rest)).2).length ≤ rest.length := by
          have := parseTag_pos (b :: rest)
          simp only [List.length_drop, List.length_cons]
          omega
        have hal : (((b :: rest).drop (parseTag (b :: rest)).2).drop
            (parseLength ((b :: rest).drop (parseTag (b :: rest)).2)).2).length ≤ rest.length := by
          simp only [List.length_drop] at hat ⊢
          omega
        have hval : ((((b :: rest).drop (parseTag (b :: rest)).2).drop
            (parseLength ((b :: rest).drop (parseTag (b :: rest)).2)).2).take
            (parseLength ((b :: rest).drop (parseTag (b :: rest)).2)).1).length ≤ rest.length := by
          simp only [List.length_take]
          omega
        have hrem : ((((b :: rest).drop (parseTag (b :: rest)).2).drop
            (parseLength ((b :: rest).drop (parseTag (b :: rest)).2)).2).drop
            (parseLength ((b :: rest).drop (parseTag (b :: rest)).2)).1).length ≤ rest.length := by
          simp only [List.length_drop] at hal ⊢
          omega
        split
        · exact ih f₂ rest h₁ h₂
        · rw [ih f₂ _ (le_trans hval h₁) (le_trans hval h₂),
            ih f₂ _ (le_trans hrem h₁) (le_trans hrem h₂)]

/-- One unfolding of `parse` at a non-padding byte, with the recursive
occurrences re-expressed through `parse` itself. -/
theorem parse_cons (b : Nat) (rest : List Nat) (hb0 : b ≠ 0x00) (hbF : b ≠ 0xFF) :
    parse (b :: rest) =
      TLVObject.mk (parseTag (b :: rest)).1
        (parseLength ((b :: rest).drop (parseTag (b :: rest)).2)).1
        ((((b :: rest).drop (parseTag (b :: rest)).2).drop
            (parseLength ((b :: rest).drop (parseTag (b :: rest)).2)).2).take
          (parseLength ((b :: rest).drop (parseTag (b :: rest)).2)).1)
        (isConstructedTag (parseTag (b :: rest)).1)
        (if isConstructedTag (parseTag (b :: rest)).1 then
          parse ((((b :: rest).drop (parseTag (b :: rest)).2).drop
              (parseLength ((b :: rest).drop (parseTag (b :: rest)).2)).2).take
            (parseLength ((b :: rest).drop (parseTag (b :: rest)).2)).1)
        else [])
      :: parse ((((b :: rest).drop (parseTag (b :: rest)).2).drop
          (parseLength ((b :: rest).drop (parseTag (b :: rest)).2)).2).drop
        (parseLength ((b :: rest).drop (parseTag (b :: rest)).2)).1) := by
  have hat : ((b :: rest).drop (parseTag (b :: rest)).2).length ≤ rest.length := by
    have := parseTag_pos (b :: rest)
    simp only [List.length_drop, List.length_cons]
    omega
  have hval : ((((b :: rest).drop (parseTag (b :: rest)).2).drop
      (parseLength ((b :: rest).drop (parseTag (b :: rest)).2)).2).take
      (parseLength ((b :: rest).drop (parseTag (b :: rest)).2)).1).length ≤ rest.length := by
    simp only [List.length_take, List.length_drop] at hat ⊢
    omega
  have hrem : ((((b :: rest).drop (parseTag (b :: rest)).2).drop
      (parseLength ((b :: rest).drop (parseTag (b :: rest)).2)).2).drop
      (parseLength ((b :: rest).drop (parseTag (b :: rest)).2)).1).length ≤ rest.length := by
    simp only [List.length_drop] at hat ⊢
    omega
  show parseBufferF (rest.length + 1) (b :: rest) = _
  simp only [parseBufferF]
  rw [if_neg (by simp [hb0, hbF])]
  rw [parseBufferF_irrel rest.length _ _ hval (le_refl _),
    parseBufferF_irrel rest.length _ _ hrem (le_refl _)]
  rfl

end TLVParser

/-! ## TLV builder (class `TLVBuilder` of the TLV module) -/

namespace TLVBuilder

/-- `TLVBuilder.encodeLength`: minimal BER short/long form. -/
def encodeLength (length : Nat) : List Nat :=
  if length < 0x80 then [length]
  else if length < 0x100 then [0x81, length]
  else if length < 0x10000 then [0x82, (length >>> 8) &&& 0xFF, length &&& 0xFF]
  else [0x83, (length >>> 16) &&& 0xFF, (length >>> 8) &&& 0xFF, length &&& 0xFF]

end TLVBuilder

/-- A tree built through the `TLVBuilder` API: `addPrimitive(tagHex, value)`
appends a primitive leaf and `addConstructed(tagHex, buildFn)` appends a
node whose value is the byte sequence a child builder produces.  A tag is
kept as its byte sequence, since `encodeTag` is just
`Buffer.from(tagHex, 'hex')`. -/
inductive BNode where
  | prim : List Nat → List Nat → BNode
  | cons : List Nat → List BNode → BNode

mutual

/-- Encoding of one `tlvData` item inside `TLVBuilder.build`: tag bytes,
then `encodeLength` of the value length, then the value bytes (for a
constructed item, the bytes built from its children). -/
def buildNode : BNode → List Nat
  | .prim t v => t ++ TLVBuilder.encodeLength v.length ++ v
  | .cons t cs => t ++ TLVBuilder.encodeLength (build cs).length ++ build cs

/-- `TLVBuilder.build`: concatenation of the item encodings. -/
def build : List BNode → List Nat
  | [] => []
  | n :: ns => buildNode n ++ build ns

end

/-- The integer the parser accumulates for a tag byte sequence (big-endian
value of the bytes). -/
def tagValue (t : List Nat) : Nat := t.foldl (fun a b => a * 256 + b) 0

mutual

/-- The `TLVObject` the parser is expected to produce for a builder node:
same tag (as the accumulated integer), the value's byte count as length,
the same value bytes, the constructed bit derived from the tag, and the
children of a constructed node re-read from its value. -/
def mkNode : BNode → TLVObject
  | .prim t v => .mk (tagValue t) v.length v false []
  | .cons t cs => .mk (tagValue t) (build cs).length (build cs) true (mkList cs)

/-- Expected parse of a whole builder tree. -/
def mkList : List BNode → List TLVObject
  | [] => []
  | n :: ns => mkNode n :: mkList ns

end

/-- Continuation bytes of a multi-byte tag: every byte has bit `0x80` set
except the last. -/
def validTagCont : List Nat → Bool
  | [] => false
  | [c] => decide (c < 256) && ((c &&& 0x80) != 0x80)
  | c :: rest => decide (c < 256) && ((c &&& 0x80) == 0x80) && validTagCont rest

/-- A well-formed encoded tag: nonempty, first byte neither `0x00` nor
`0xFF` (the parser would skip it as padding), low five bits of the first
byte all set exactly when the tag continues, and at most 3 bytes (the
widest EMV tag; keeps the JavaScript 32-bit shift arithmetic exact). -/
def validTagBytes : List Nat → Bool
  | [] => false
  | [b] => decide (b < 256) && (b != 0x00) && (b != 0xFF) && ((b &&& 0x1F) != 0x1F)
  | b :: rest => decide (b < 256) && (b != 0xFF) && ((b &&& 0x1F) == 0x1F) &&
      validTagCont rest && decide (rest.length ≤ 2)

mutual

/-- Validity of a builder node: a well-formed tag whose constructed bit
(as the parser derives it) agrees with the builder method used, byte
values below 256, and value lengths below `2^24` (the widest length
`encodeLength` can emit). -/
def validNode : BNode → Bool
  | .prim t v => validTagBytes t && !(TLVParser.isConstructedTag (tagValue t)) &&
      v.all (fun x => decide (x < 256)) && decide (v.length < 0x1000000)
  | .cons t cs => validTagBytes t && TLVParser.isConstructedTag (tagValue t) &&
      validList cs && decide ((build cs).length < 0x1000000)

/-- Validity of a builder tree. -/
def validList : List BNode → Bool
  | [] => true
  | n :: ns => validNode n && validList ns

end

theorem land128_eq_zero {x : Nat} (h : x < 128) : x &&& 0x80 = 0 := by
  have h2 := Nat.and_two_pow x 7
  rw [Nat.testBit_lt_two_pow (by omega)] at h2
  simpa using h2

theorem land255_eq_mod (x : Nat) : x &&& 0xFF = x % 256 := by
  have := Nat.and_pow_two_sub_one_eq_mod x 8
  norm_num at this
  exact this

/-- A valid tag is parsed back to its big-endian value, consuming exactly
its own bytes. -/
theorem parseTag_valid (t : List Nat) (h : validTagBytes t = true) (rest : List Nat) :
    TLVParser.parseTag (t ++ rest) = (tagValue t, t.length) := by
  rcases t with _ | ⟨b, _ | ⟨c, _ | ⟨d, _ | ⟨e, t'⟩⟩⟩⟩
  · simp [validTagBytes] at h
  · simp only [validTagBytes, Bool.and_eq_true, bne_iff_ne, decide_eq_true_eq] at h
    obtain ⟨⟨⟨hb, h0⟩, hF⟩, h1F⟩ := h
    simp [TLVParser.parseTag, tagValue, h1F]
  · simp only [validTagBytes, validTagCont, Bool.and_eq_true, bne_iff_ne, beq_iff_eq,
      decide_eq_true_eq] at h
    obtain ⟨⟨⟨⟨hb, hbF⟩, hb1F⟩, hc, hc80⟩, -⟩ := h
    simp [TLVParser.parseTag, TLVParser.parseTagAux, tagValue, hb1F, hc80]
  · simp only [validTagBytes, validTagCont, Bool.and_eq_true, bne_iff_ne, beq_iff_eq,
      decide_eq_true_eq] at h
    obtain ⟨⟨⟨⟨hb, hbF⟩, hb1F⟩, hcont⟩, -⟩ := h
    obtain ⟨⟨hc, hc80⟩, hd, hd80⟩ := hcont
    simp [TLVParser.parseTag, TLVParser.parseTagAux, tagValue, hb1F, hc80, hd80]
  · simp only [validTagBytes, Bool.and_eq_true, decide_eq_true_eq, List.length_cons] at h
    omega

/-- The first byte of a valid tag is neither `0x00` nor `0xFF`, so the
parser does not skip it as padding. -/
theorem validTagBytes_head (t : List Nat) (h : validTagBytes t = true) :
    ∃ b t', t = b :: t' ∧ b ≠ 0x00 ∧ b ≠ 0xFF := by
  rcases t with _ | ⟨b, _ | ⟨c, t''⟩⟩
  · simp [validTagBytes] at h
  · simp only [validTagBytes, Bool.and_eq_true, bne_iff_ne, decide_eq_true_eq] at h
    obtain ⟨⟨⟨hb, h0⟩, hF⟩, h1F⟩ := h
    exact ⟨b, [], rfl, h0, hF⟩
  · simp only [validTagBytes, Bool.and_eq_true, bne_iff_ne, beq_iff_eq,
      decide_eq_true_eq] at h
    obtain ⟨⟨⟨⟨hb, hbF⟩, hb1F⟩, -⟩, -⟩ := h
    refine ⟨b, c :: t'', rfl, ?_, hbF⟩
    rintro rfl
    simp at hb1F

/-- `encodeLength` round-trips through `parseLength` for every length the
long form can represent, consuming exactly its own bytes. -/
theorem parseLength_encode (n : Nat) (h : n < 0x1000000) (rest : List Nat) :
    TLVParser.parseLength (TLVBuilder.encodeLength n ++ rest) =
      (n, (TLVBuilder.encodeLength n).length) := by
  unfold TLVBuilder.encodeLength
  by_cases h1 : n < 0x80
  · simp only [if_pos h1]
    simp [TLVParser.parseLength, land128_eq_zero (by omega : n < 128)]
  · have e2 : n >>> 8 = n / 256 := by simpa using Nat.shiftRight_eq_div_pow n 8
    have e3 : n >>> 16 = n / 65536 := by simpa using Nat.shiftRight_eq_div_pow n 16
    by_cases h2 : n < 0x100
    · simp only [if_neg h1, if_pos h2, List.cons_append, List.nil_append]
      have hcond : ((0x81 : Nat) &&& 0x80 == 0) = false := by decide
      have hnum : (0x81 : Nat) &&& 0x7F = 1 := by decide
      simp [TLVParser.parseLength, hcond, hnum, TLVParser.readBEPad, List.range_succ]
    · by_cases h3 : n < 0x10000
      · simp only [if_neg h1, if_neg h2, if_pos h3, List.cons_append, List.nil_append]
        have hcond : ((0x82 : Nat) &&& 0x80 == 0) = false := by decide
        have hnum : (0x82 : Nat) &&& 0x7F = 2 := by decide
        simp [TLVParser.parseLength, hcond, hnum, TLVParser.readBEPad, List.range_succ,
          e2, land255_eq_mod, Prod.mk.injEq]
        omega
      · simp only [if_neg h1, if_neg h2, if_neg h3, List.cons_append, List.nil_append]
        have hcond : ((0x83 : Nat) &&& 0x80 == 0) = false := by decide
        have hnum : (0x83 : Nat) &&& 0x7F = 3 := by decide
        simp [TLVParser.parseLength, hcond, hnum, TLVParser.readBEPad, List.range_succ,
          e2, e3, land255_eq_mod, Prod.mk.injEq]
        omega

theorem parse_nil : TLVParser.parse [] = [] := rfl

/-- Parsing one well-formed encoded node at the front of a buffer yields
that node (children re-parsed from its value if its tag is constructed)
followed by the parse of the remaining bytes. -/
theorem parse_node_general (t : List Nat) (ht : validTagBytes t = true) (v rest : List Nat)
    (hlen : v.length < 0x1000000) :
    TLVParser.parse (t ++ (TLVBuilder.encodeLength v.length ++ (v ++ rest)))
      = TLVObject.mk (tagValue t) v.length v (TLVParser.isConstructedTag (tagValue t))
          (if TLVParser.isConstructedTag (tagValue t) then TLVParser.parse v else [])
        :: TLVParser.parse rest := by
  obtain ⟨b, t', rfl, hb0, hbF⟩ := validTagBytes_head t ht
  rw [List.cons_append, TLVParser.parse_cons b _ hb0 hbF]
  simp only [← List.cons_append]
  rw [parseTag_valid _ ht]
  simp only [List.drop_left]
  rw [parseLength_encode _ hlen]
  simp only [List.drop_left, List.take_left]

mutual

/-- The parser reproduces one valid builder node placed at the front of a
buffer. -/
theorem parse_buildNode (n : BNode) (h : validNode n = true) (rest : List Nat) :
    TLVParser.parse (buildNode n ++ rest) = mkNode n :: TLVParser.parse rest := by
  cases n with
  | prim t v =>
    simp only [validNode, Bool.and_eq_true, Bool.not_eq_true', decide_eq_true_eq] at h
    obtain ⟨⟨⟨ht, hc⟩, -⟩, hlen⟩ := h
    have hb : buildNode (.prim t v) ++ rest
        = t ++ (TLVBuilder.encodeLength v.length ++ (v ++ rest)) := by
      simp [buildNode]
    rw [hb, parse_node_general t ht v rest hlen]
    simp [mkNode, hc]
  | cons t cs =>
    simp only [validNode, Bool.and_eq_true, decide_eq_true_eq] at h
    obtain ⟨⟨⟨ht, hc⟩, hcs⟩, hlen⟩ := h
    have hb : buildNode (.cons t cs) ++ rest
        = t ++ (TLVBuilder.encodeLength (build cs).length ++ (build cs ++ rest)) := by
      simp [buildNode]
    rw [hb, parse_node_general t ht (build cs) rest hlen]
    have hchild : TLVParser.parse (build cs) = mkList cs := by
      have h2 := parse_build cs hcs []
      simpa [parse_nil] using h2
    simp [mkNode, hc, hchild]

/-- The parser reproduces a whole valid builder tree placed at the front
of a buffer. -/
theorem parse_build (ns : List BNode) (h : validList ns = true) (rest : List Nat) :
    TLVParser.parse (build ns ++ rest) = mkList ns ++ TLVParser.parse rest := by
  cases ns with
  | nil => simp [build, mkList]
  | cons n ns' =>
    simp only [validList, Bool.and_eq_true] at h
    rw [build, List.append_assoc, parse_buildNode n h.1 _, mkList]
    rw [parse_build ns' h.2]
    simp

end

/-- **C1**: for every valid TLV node tree built with the builder API
(`addPrimitive`/`addConstructed`, validity per `validNode`: well-formed
tags whose constructed bit matches the builder method used, byte values,
representable lengths), parsing the bytes produced by `TLVBuilder.build`
with `TLVParser.parse` reproduces the same tag/length/value tree —
structural equality of tags, lengths, values and child structure, the
auxiliary `name`/`tagHex`/`valueHex` annotations (not modelled, being
derived data) aside. -/
theorem c1_build_parse_roundtrip (ns : List BNode) (h : validList ns = true) :
    TLVParser.parse (build ns) = mkList ns := by
  have h2 := parse_build ns h []
  simpa [parse_nil] using h2

/-- A sample builder tree: an FCI template with a DF name and a
proprietary template holding a PDOL, followed by a primitive
three-byte-tag leaf. -/
def exampleTree : List BNode :=
  [ .cons [0x6F]
      [ .prim [0x84] [0xA0, 0x00, 0x00, 0x00, 0x15, 0x20, 0x10],
        .cons [0xA5] [ .prim [0x9F, 0x38] [0x9F, 0x66, 0x04, 0x9F, 0x02, 0x06] ] ],
    .prim [0xDF, 0x81, 0x01] [0x01, 0x02, 0x03] ]

theorem c1_build_parse_roundtrip_witness :
    validList exampleTree = true ∧
      TLVParser.parse (build exampleTree) = mkList exampleTree :=
  ⟨by decide, c1_build_parse_roundtrip exampleTree (by decide)⟩

/-- **C2**: the claim says a declared value running past the end of the
buffer makes `TLVParser.parse` fail with a decode error naming the offset
and never yields fabricated (truncated) data.  The code has no error path
at all: on the two-byte input `81 05` (tag `0x81` declaring a five-byte
value with no value bytes present) it silently returns a node whose
`length` field is 5 while its `value` holds 0 bytes — fabricated,
truncated data instead of a decode error. -/
theorem c2_truncated_input_not_rejected :
    TLVParser.parse [0x81, 0x05] = [TLVObject.mk 0x81 5 [] false []] := rfl

/-- **C8** (counterexample): the claim says constructedness is decided by
bit `0x20` of the *first* byte of the tag, even for multi-byte tags.  On
input `DF A1 01 00` the parser reads the three-byte tag `0xDFA101`, whose
first byte `0xDF` has bit `0x20` clear, yet marks the node constructed —
`isConstructedTag` tests `(tag >> 8) & 0xFF`, the *middle* byte `0xA1`,
for tags wider than two bytes. -/
theorem c8_counterexample :
    TLVParser.parse [0xDF, 0xA1, 0x01, 0x00] = [TLVObject.mk 0xDFA101 0 [] true []]
      ∧ 0xDF &&& 0x20 ≠ 0x20 :=
  ⟨rfl, by decide⟩

/-- **C8** (amended): for every decoded valid tag, the parser decides
constructedness by testing bit `0x20` of the tag's *next-to-last* byte —
which coincides with the first byte exactly for tags of one or two bytes
(all but three-byte tags). -/
theorem c8_amended_constructed_bit (t : List Nat) (h : validTagBytes t = true)
    (rest : List Nat) :
    TLVParser.isConstructedTag (TLVParser.parseTag (t ++ rest)).1
      = ((t.getD (t.length - 2) 0) &&& 0x20 == 0x20) := by
  rw [parseTag_valid t h]
  rcases t with _ | ⟨b, _ | ⟨c, _ | ⟨d, _ | ⟨e, t'⟩⟩⟩⟩
  · simp [validTagBytes] at h
  · simp only [validTagBytes, Bool.and_eq_true, bne_iff_ne, decide_eq_true_eq] at h
    obtain ⟨⟨⟨hb, h0⟩, hF⟩, h1F⟩ := h
    have hv : tagValue [b] = b := by simp [tagValue]
    simp only [TLVParser.isConstructedTag, hv]
    rw [if_neg (by omega)]
    simp
  · simp only [validTagBytes, validTagCont, Bool.and_eq_true, bne_iff_ne, beq_iff_eq,
      decide_eq_true_eq] at h
    obtain ⟨⟨⟨⟨hb, hbF⟩, hb1F⟩, hc, hc80⟩, -⟩ := h
    have hble : 31 ≤ b := by
      have h2 := Nat.and_le_left (n := b) (m := 0x1F)
      omega
    have hv : tagValue [b, c] = b * 256 + c := by simp [tagValue]
    have e : (b * 256 + c) >>> 8 = (b * 256 + c) / 256 := by
      simpa using Nat.shiftRight_eq_div_pow (b * 256 + c) 8
    have ediv : (b * 256 + c) / 256 % 256 = b := by omega
    simp only [TLVParser.isConstructedTag, hv]
    rw [if_pos (by omega), e, land255_eq_mod, ediv]
    simp
  · simp only [validTagBytes, validTagCont, Bool.and_eq_true, bne_iff_ne, beq_iff_eq,
      decide_eq_true_eq] at h
    obtain ⟨⟨⟨⟨hb, hbF⟩, hb1F⟩, hcont⟩, -⟩ := h
    obtain ⟨⟨hc, hc80⟩, hd, hd80⟩ := hcont
    have hble : 31 ≤ b := by
      have h2 := Nat.and_le_left (n := b) (m := 0x1F)
      omega
    have hv : tagValue [b, c, d] = (b * 256 + c) * 256 + d := by simp [tagValue]
    have e : ((b * 256 + c) * 256 + d) >>> 8 = ((b * 256 + c) * 256 + d) / 256 := by
      simpa using Nat.shiftRight_eq_div_pow ((b * 256 + c) * 256 + d) 8
    have ediv : ((b * 256 + c) * 256 + d) / 256 % 256 = c := by omega
    simp only [TLVParser.isConstructedTag, hv]
    rw [if_pos (by omega), e, land255_eq_mod, ediv]
    simp
  · simp only [validTagBytes, Bool.and_eq_true, decide_eq_true_eq, List.length_cons] at h
    omega

theorem c8_amended_constructed_bit_witness :
    validTagBytes [0xDF, 0xA1, 0x01] = true ∧
      TLVParser.isConstructedTag (TLVParser.parseTag ([0xDF, 0xA1, 0x01] ++ [0x00])).1
        = (([0xDF, 0xA1, 0x01].getD 1 0) &&& 0x20 == 0x20) :=
  ⟨by decide, c8_amended_constructed_bit [0xDF, 0xA1, 0x01] (by decide) [0x00]⟩

namespace TLVParser

mutual

/-- `TLVParser.findTag`: depth-first search for the first node whose tag
matches, recursing into the children of constructed nodes.  The
JavaScript compares upper-case `tagHex` strings; the hexadecimal
rendering of `tag` is injective, so the comparison is modelled on the
numeric tag. -/
def findTag : List TLVObject → Nat → Option TLVObject
  | [], _ => none
  | tlv :: rest, t =>
    match findTagVisit tlv t with
    | some found => some found
    | none => findTag rest t

/-- The loop body of `TLVParser.findTag` for one node: report the node on
a tag match, otherwise search its children when it is constructed and has
any. -/
def findTagVisit : TLVObject → Nat → Option TLVObject
  | .mk tg ln v c cs, t =>
    if tg == t then some (.mk tg ln v c cs)
    else if c && !cs.isEmpty then findTag cs t
    else none

end

end TLVParser

/-! ## DOL codec (class `DOLParser` of the TLV module) -/

/-- One parsed DOL entry: the tag plus its single-byte expected length.
The JavaScript entry additionally carries `tagHex` and `name`
annotations derived from `tag`. -/
structure DOLEntry where
  tag : Nat
  length : Nat
deriving DecidableEq

namespace DOLParser

/-- The while loop of `DOLParser.parse`, fuelled like the TLV parser: at
each step read one TLV-style tag (via `TLVParser.parseTag`) and then
exactly one length byte (DOLs use single-byte lengths only). -/
def parseF : Nat → List Nat → List DOLEntry
  | 0, _ => []
  | _ + 1, [] => []
  | fuel + 1, b :: rest =>
    let l := b :: rest
    let tg := TLVParser.parseTag l
    let after := l.drop tg.2
    ⟨tg.1, after.getD 0 0⟩ :: parseF fuel (after.drop 1)

/-- `DOLParser.parse`. -/
def parse (l : List Nat) : List DOLEntry := parseF l.length l

/-- `DOLParser.buildData`: for each entry in order, look the tag up in
the value map (a missing key — or the empty string, which produces the
same bytes — falls back to a zero filler of the entry's length), then
left-pad with zeros or truncate from the left to exactly `entry.length`
bytes, and concatenate everything. -/
def buildData (dolEntries : List DOLEntry) (values : Nat → Option (List Nat)) : List Nat :=
  (dolEntries.map (fun entry =>
    let valueBuffer :=
      match values entry.tag with
      | none => List.replicate entry.length 0
      | some v => v
    if valueBuffer.length < entry.length then
      List.replicate (entry.length - valueBuffer.length) 0 ++ valueBuffer
    else if valueBuffer.length > entry.length then
      valueBuffer.drop (valueBuffer.length - entry.length)
    else valueBuffer)).flatten

end DOLParser

/-- The claim's description of one materialized DOL field: the supplied
value right-aligned in a window of exactly `entry.length` zero-initialised
bytes — zero-left-padded when shorter, keeping only the rightmost
(least-significant) bytes when longer — and all zeros when no value is
supplied. -/
def dolChunkSpec (values : Nat → Option (List Nat)) (entry : DOLEntry) : List Nat :=
  match values entry.tag with
  | none => List.replicate entry.length 0
  | some v => (List.replicate entry.length 0 ++ v).drop v.length

theorem dolChunkSpec_length (values : Nat → Option (List Nat)) (entry : DOLEntry) :
    (dolChunkSpec values entry).length = entry.length := by
  cases h : values entry.tag <;> simp [dolChunkSpec, h]

/-- **C7**: for every list of DOL entries and every tag-to-value map,
`DOLParser.buildData` returns the concatenation, in entry order, of
exactly one buffer of `entry.length` bytes per entry — the supplied value
zero-left-padded when shorter, truncated from the left (keeping the
rightmost bytes) when longer, all zeros when absent; in particular the
entry `(9F02, 6)` with value `0010` yields `000000000010`. -/
theorem c7_dol_materialization :
    (∀ (dolEntries : List DOLEntry) (values : Nat → Option (List Nat)),
        DOLParser.buildData dolEntries values
          = (dolEntries.map (dolChunkSpec values)).flatten
        ∧ ∀ entry ∈ dolEntries, (dolChunkSpec values entry).length = entry.length)
      ∧ DOLParser.buildData [⟨0x9F02, 6⟩]
          (fun t => if t == 0x9F02 then some [0x00, 0x10] else none)
          = [0x00, 0x00, 0x00, 0x00, 0x00, 0x10] := by
  refine ⟨fun dolEntries values => ⟨?_, fun entry _ => dolChunkSpec_length values entry⟩, ?_⟩
  · unfold DOLParser.buildData
    congr 1
    apply List.map_congr_left
    intro entry _
    cases h : values entry.tag with
    | none => simp [dolChunkSpec, h]
    | some v =>
      simp only [dolChunkSpec, h]
      rcases Nat.lt_trichotomy v.length entry.length with hlt | heq | hgt
      · rw [if_pos hlt]
        rw [List.drop_append_of_le_length (by simp; omega)]
        simp
      · rw [if_neg (by omega), if_neg (by omega)]
        rw [show v.length = (List.replicate entry.length (0 : Nat)).length by simp [heq],
          List.drop_left]
      · rw [if_neg (by omega), if_pos hgt]
        rw [show v.length = (List.replicate entry.length (0 : Nat)).length + (v.length - entry.length) by
          simp; omega]
        rw [List.drop_append]
        congr 1
        simp
  · rfl

theorem c7_dol_materialization_witness :
    (⟨0x9F02, 6⟩ : DOLEntry) ∈ [(⟨0x9F02, 6⟩ : DOLEntry)] ∧
      (dolChunkSpec (fun t => if t == 0x9F02 then some [0x00, 0x10] else none)
        ⟨0x9F02, 6⟩).length = 6 :=
  ⟨by decide,
    (c7_dol_materialization.1 [⟨0x9F02, 6⟩]
      (fun t => if t == 0x9F02 then some [0x00, 0x10] else none)).2
      ⟨0x9F02, 6⟩ (by decide)⟩

/-! ## APDU model (`core/apdu/apdu-handler.js`) -/

/-- `CommandAPDU`.  `data = null` / `le = null` are `none`.  A present
empty buffer is `some []`: the JavaScript `!this.data` is `false` even
for an empty `Buffer` (objects are truthy), so `some []` counts as "data
present" exactly as in the source. -/
structure CommandAPDU where
  cla : Nat
  ins : Nat
  p1 : Nat
  p2 : Nat
  data : Option (List Nat) := none
  le : Option Nat := none
deriving DecidableEq

/-- The derived `case` getter of `CommandAPDU` (`case` is a Lean keyword,
hence the name): 1 = no data, no Le; 2 = no data, Le; 3 = data, no Le;
4 = data and Le. -/
def CommandAPDU.caseNum (a : CommandAPDU) : Nat :=
  if a.data = none ∧ a.le = none then 1
  else if a.data = none ∧ a.le ≠ none then 2
  else if a.data ≠ none ∧ a.le = none then 3
  else 4

/-- `CommandAPDU.toBuffer`: header, then per case the Lc byte, data and
Le byte, where a `le` of 256 is written as the byte `0x00`. -/
def CommandAPDU.toBuffer (a : CommandAPDU) : List Nat :=
  let header := [a.cla, a.ins, a.p1, a.p2]
  let d := a.data.getD []
  let l := a.le.getD 0
  if a.caseNum = 1 then header
  else if a.caseNum = 2 then header ++ [if l = 256 then 0 else l]
  else if a.caseNum = 3 then header ++ [d.length] ++ d
  else header ++ [d.length] ++ d ++ [if l = 256 then 0 else l]

/-- `CommandAPDU.fromBuffer`: the two `throw new Error(...)` paths are
`none`.  A trailing byte `0x00` in Le position is read back as 256. -/
def CommandAPDU.fromBuffer (buffer : List Nat) : Option CommandAPDU :=
  if buffer.length < 4 then none
  else
    let cla := buffer.getD 0 0
    let ins := buffer.getD 1 0
    let p1 := buffer.getD 2 0
    let p2 := buffer.getD 3 0
    if buffer.length = 4 then some ⟨cla, ins, p1, p2, none, none⟩
    else if buffer.length = 5 then
      some ⟨cla, ins, p1, p2, none,
        some (if buffer.getD 4 0 = 0 then 256 else buffer.getD 4 0)⟩
    else
      let lc := buffer.getD 4 0
      if buffer.length = 5 + lc then
        some ⟨cla, ins, p1, p2, some ((buffer.drop 5).take lc), none⟩
      else if buffer.length = 6 + lc then
        some ⟨cla, ins, p1, p2, some ((buffer.drop 5).take lc),
          some (if buffer.getD (5 + lc) 0 = 0 then 256 else buffer.getD (5 + lc) 0)⟩
      else none

theorem fromBuffer_case3 (cla ins p1 p2 : Nat) (d : List Nat) (h1 : 1 ≤ d.length) :
    CommandAPDU.fromBuffer (cla :: ins :: p1 :: p2 :: d.length :: d)
      = some ⟨cla, ins, p1, p2, some d, none⟩ := by
  simp only [CommandAPDU.fromBuffer]
  have hlen : (cla :: ins :: p1 :: p2 :: d.length :: d).length = 5 + d.length := by
    simp
    omega
  have hg : (cla :: ins :: p1 :: p2 :: d.length :: d).getD 4 0 = d.length := by simp
  rw [hlen, hg]
  rw [if_neg (by omega), if_neg (by omega), if_neg (by omega), if_pos rfl]
  simp

theorem fromBuffer_case4 (cla ins p1 p2 : Nat) (d : List Nat) (leb : Nat)
    (h1 : 1 ≤ d.length) :
    CommandAPDU.fromBuffer ((cla :: ins :: p1 :: p2 :: d.length :: d) ++ [leb])
      = some ⟨cla, ins, p1, p2, some d,
          some (if leb = 0 then 256 else leb)⟩ := by
  simp only [CommandAPDU.fromBuffer]
  have hlen : ((cla :: ins :: p1 :: p2 :: d.length :: d) ++ [leb]).length = 6 + d.length := by
    simp
    omega
  have hg : ((cla :: ins :: p1 :: p2 :: d.length :: d) ++ [leb]).getD 4 0 = d.length := by
    rw [List.getD_append _ _ _ _ (by simp)]
    simp
  have hgle : ((cla :: ins :: p1 :: p2 :: d.length :: d) ++ [leb]).getD (5 + d.length) 0
      = leb := by
    have hc : (cla :: ins :: p1 :: p2 :: d.length :: d) ++ [leb]
        = cla :: ins :: p1 :: p2 :: d.length :: (d ++ [leb]) := by simp
    rw [hc, show 5 + d.length = d.length + 5 from by omega]
    simp [List.getD_cons_succ]
  rw [hlen, hg]
  rw [if_neg (by omega), if_neg (by omega), if_neg (by omega), if_neg (by omega),
    if_pos rfl, hgle]
  have hdrop : ((cla :: ins :: p1 :: p2 :: d.length :: d) ++ [leb]).drop 5 = d ++ [leb] := by
    simp
  rw [hdrop]
  rw [List.take_append_of_le_length (le_refl _), List.take_length]
  simp

/-- **C6** (counterexample): two commands whose fields are *not*
reconstructed by `fromBuffer ∘ toBuffer`.  A case-3 command with a
present-but-empty data buffer serialises to a 5-byte APDU and is read
back as a case-2 command with no data and `le = 256`; a command with
`le = 0` writes the Le byte `0x00`, which is read back as 256. -/
theorem c6_counterexample :
    CommandAPDU.fromBuffer (CommandAPDU.toBuffer ⟨0x00, 0xA4, 0x04, 0x00, some [], none⟩)
        ≠ some ⟨0x00, 0xA4, 0x04, 0x00, some [], none⟩
      ∧ CommandAPDU.fromBuffer (CommandAPDU.toBuffer ⟨0x00, 0xB2, 0x01, 0x0C, none, some 0⟩)
        ≠ some ⟨0x00, 0xB2, 0x01, 0x0C, none, some 0⟩ := by
  decide

/-- **C6** (amended): for every `CommandAPDU` the derived case is exactly
one of {1,2,3,4} per the table (1 = no data/no Le, 2 = no data/Le,
3 = data/no Le, 4 = data and Le), and `fromBuffer (toBuffer a)`
reconstructs identical `cla`/`ins`/`p1`/`p2`/`data`/`le` fields provided
the header bytes are bytes, the data — when present — is nonempty with at
most 255 bytes, and `le` — when present — lies in `[1, 256]` (the Le byte
`0x00` still means 256 in both directions; a present empty data buffer or
`le = 0` is read back differently, see the counterexample). -/
theorem c6_apdu_case_and_roundtrip (a : CommandAPDU)
    (hcla : a.cla < 256) (hins : a.ins < 256) (hp1 : a.p1 < 256) (hp2 : a.p2 < 256)
    (hdata : a.data = none ∨ ∃ d, a.data = some d ∧ 1 ≤ d.length ∧ d.length ≤ 255)
    (hle : a.le = none ∨ ∃ n, a.le = some n ∧ 1 ≤ n ∧ n ≤ 256) :
    ((a.caseNum = 1 ↔ a.data = none ∧ a.le = none)
      ∧ (a.caseNum = 2 ↔ a.data = none ∧ a.le ≠ none)
      ∧ (a.caseNum = 3 ↔ a.data ≠ none ∧ a.le = none)
      ∧ (a.caseNum = 4 ↔ a.data ≠ none ∧ a.le ≠ none))
      ∧ CommandAPDU.fromBuffer (CommandAPDU.toBuffer a) = some a := by
  obtain ⟨cla, ins, p1, p2, data, le⟩ := a
  rcases hdata with hd | ⟨d, hd, hd1, hd2⟩ <;> rcases hle with hl | ⟨n, hl, hn1, hn2⟩ <;>
    subst hd <;> subst hl
  · -- case 1: no data, no le
    refine ⟨by simp [CommandAPDU.caseNum], ?_⟩
    simp [CommandAPDU.caseNum, CommandAPDU.toBuffer, CommandAPDU.fromBuffer]
  · -- case 2: no data, le present
    refine ⟨by simp [CommandAPDU.caseNum], ?_⟩
    by_cases h256 : n = 256
    · subst h256
      simp [CommandAPDU.caseNum, CommandAPDU.toBuffer, CommandAPDU.fromBuffer]
    · simp [CommandAPDU.caseNum, CommandAPDU.toBuffer, CommandAPDU.fromBuffer, h256]
      omega
  · -- case 3: data present, no le
    refine ⟨by simp [CommandAPDU.caseNum], ?_⟩
    have hb : CommandAPDU.toBuffer ⟨cla, ins, p1, p2, some d, none⟩
        = cla :: ins :: p1 :: p2 :: d.length :: d := by
      simp [CommandAPDU.caseNum, CommandAPDU.toBuffer]
    rw [hb, fromBuffer_case3 cla ins p1 p2 d hd1]
  · -- case 4: data and le present
    refine ⟨by simp [CommandAPDU.caseNum], ?_⟩
    have hb : CommandAPDU.toBuffer ⟨cla, ins, p1, p2, some d, some n⟩
        = (cla :: ins :: p1 :: p2 :: d.length :: d) ++ [if n = 256 then 0 else n] := by
      simp [CommandAPDU.caseNum, CommandAPDU.toBuffer]
    rw [hb, fromBuffer_case4 cla ins p1 p2 d _ hd1]
    by_cases h256 : n = 256
    · subst h256
      simp
    · rw [if_neg h256, if_neg (by omega)]

theorem c6_apdu_case_and_roundtrip_witness :
    ((0x00 : Nat) < 256 ∧ (0xA4 : Nat) < 256 ∧ (0x04 : Nat) < 256 ∧ (0x00 : Nat) < 256)
      ∧ CommandAPDU.fromBuffer
          (CommandAPDU.toBuffer ⟨0x00, 0xA4, 0x04, 0x00, some [0xA0, 0x00], some 256⟩)
        = some ⟨0x00, 0xA4, 0x04, 0x00, some [0xA0, 0x00], some 256⟩ :=
  ⟨⟨by decide, by decide, by decide, by decide⟩,
    (c6_apdu_case_and_roundtrip ⟨0x00, 0xA4, 0x04, 0x00, some [0xA0, 0x00], some 256⟩
      (by decide) (by decide) (by decide) (by decide)
      (Or.inr ⟨[0xA0, 0x00], rfl, by decide, by decide⟩)
      (Or.inr ⟨256, rfl, by decide, by decide⟩)).2⟩

/-! ## EMV transaction engine (`core/protocol/emv-engine.js`) -/

/-- `TransactionState` (every constructor of the source enum). -/
inductive TransactionState where
  | IDLE
  | APPLICATION_SELECTION
  | INITIATE_APPLICATION_PROCESSING
  | READ_APPLICATION_DATA
  | OFFLINE_DATA_AUTHENTICATION
  | PROCESSING_RESTRICTIONS
  | CARDHOLDER_VERIFICATION
  | TERMINAL_RISK_MANAGEMENT
  | TERMINAL_ACTION_ANALYSIS
  | CARD_ACTION_ANALYSIS
  | ONLINE_PROCESSING
  | ISSUER_SCRIPT_PROCESSING
  | COMPLETION
  | ERROR
deriving DecidableEq

/-- `ResponseAPDU`: response data plus the two status-word bytes. -/
structure ResponseAPDU where
  data : List Nat
  sw1 : Nat
  sw2 : Nat
deriving DecidableEq

/-- The `sw` getter: `(sw1 << 8) | sw2`. -/
def ResponseAPDU.sw (r : ResponseAPDU) : Nat := (r.sw1 <<< 8) ||| r.sw2

/-- `SW.isSuccess`: `sw === 0x9000 || (sw >= 0x9100 && sw <= 0x91FF)`. -/
def SW.isSuccess (sw : Nat) : Bool :=
  sw == 0x9000 || (decide (0x9100 ≤ sw) && decide (sw ≤ 0x91FF))

/-- The `isSuccess` getter of `ResponseAPDU`. -/
def ResponseAPDU.isSuccess (r : ResponseAPDU) : Bool := SW.isSuccess r.sw

/-- One `ctx.interopIssues` entry: `recordInteropIssue` stores the issue's
`type` and `severity` (with its `message`/`recommendation` strings, pure
presentation data not modelled) plus a timestamp (not modelled) and the
state at detection. -/
structure InteropIssue where
  issueType : String
  severity : String
  state : TransactionState
deriving DecidableEq

/-- One `ctx.errors` entry: the phase and the status word (`sw` is absent
on the unknown-GPO-format error); the human-readable `message` derived
from the status word is not modelled. -/
structure ErrorEntry where
  phase : String
  sw : Option Nat
deriving DecidableEq

/-- One `ctx.warnings` entry (READ RECORD failures). -/
structure WarningEntry where
  phase : String
  sfi : Nat
  record : Nat
  sw : Nat
deriving DecidableEq

/-- One parsed AFL entry (`EMVProtocolEngine.parseAFL`). -/
structure AFLEntry where
  sfi : Nat
  firstRecord : Nat
  lastRecord : Nat
  numODARecords : Nat
deriving DecidableEq

/-- `TransactionContext` — the fields the engine methods below read or
write, with the constructor's initial values.  Not modelled:
`interfaceType`, the terminal-side fields, the timing marks and the event
log (`logEvent` records presentation data only).  The `cardData` map is
modelled as its sequence of `.set` operations (later entries shadow
earlier ones on lookup, like `Map.set`). -/
structure TransactionContext where
  state : TransactionState := .IDLE
  kernel : Option Nat := none
  fci : Option (List TLVObject) := none
  pdol : Option (List DOLEntry) := none
  aip : Option (List Nat) := none
  afl : Option (List AFLEntry) := none
  records : List (Nat × Nat × List TLVObject) := []
  cardData : List (Nat × List Nat) := []
  cdol1 : Option (List DOLEntry) := none
  cdol2 : Option (List DOLEntry) := none
  cryptogram : Option (List Nat) := none
  cryptogramType : Option Nat := none
  errors : List ErrorEntry := []
  warnings : List WarningEntry := []
  interopIssues : List InteropIssue := []

mutual

/-- The recursive flattening inside `ctx.addCardData`: set each node's
tag/value in order, recursing into the children of constructed nodes. -/
def addCardDataList : List TLVObject → List (Nat × List Nat)
  | [] => []
  | tlv :: rest => addCardDataNode tlv ++ addCardDataList rest

/-- The per-node step of `addCardData`: the node's own `.set`, then its
children's when it is constructed and has any. -/
def addCardDataNode : TLVObject → List (Nat × List Nat)
  | .mk tg _ v c cs =>
    (tg, v) :: (if c && !cs.isEmpty then addCardDataList cs else [])

end

/-- `ctx.addCardData`. -/
def TransactionContext.addCardData (ctx : TransactionContext)
    (tlvArray : List TLVObject) : TransactionContext :=
  { ctx with cardData := ctx.cardData ++ addCardDataList tlvArray }

/-- `ctx.recordInteropIssue`. -/
def TransactionContext.recordInteropIssue (ctx : TransactionContext)
    (issueType severity : String) : TransactionContext :=
  { ctx with interopIssues := ctx.interopIssues ++ [⟨issueType, severity, ctx.state⟩] }

namespace EMVProtocolEngine

/-- `EMVProtocolEngine.validateFFI`.  The engine option
`detectInteropIssues` is the explicit first argument. -/
def validateFFI (detectInteropIssues : Bool) (ctx : TransactionContext)
    (ffiTag : TLVObject) : TransactionContext :=
  if !detectInteropIssues then ctx
  else
    let ffi := ffiTag.value
    let ctx := if ffi.length < 4 then
        ctx.recordInteropIssue "FFI_LENGTH" "WARNING"
      else ctx
    let formFactor := ffi.getD 1 0 &&& 0x0F
    let ctx := if !([0x00, 0x01, 0x02, 0x03, 0x04, 0x05, 0x06].contains formFactor) then
        ctx.recordInteropIssue "FFI_INVALID_FORM_FACTOR" "ERROR"
      else ctx
    if ctx.kernel == some 0x08 then
      ctx.recordInteropIssue "FFI_C8_KERNEL" "INFO"
    else ctx

/-- `EMVProtocolEngine.validatePAR`: `parTag.valueHex` has twice as many
characters as the value has bytes, hence the `* 2`. -/
def validatePAR (detectInteropIssues : Bool) (ctx : TransactionContext)
    (parTag : TLVObject) : TransactionContext :=
  if !detectInteropIssues then ctx
  else
    let ctx := if parTag.value.length * 2 ≠ 58 then
        ctx.recordInteropIssue "PAR_LENGTH" "WARNING"
      else ctx
    ctx.recordInteropIssue "PAR_LEGACY_CHECK" "INFO"

/-- `EMVProtocolEngine.processSelectResponse` (the engine parses
`response.data.toString('hex')`, i.e. exactly the data bytes). -/
def processSelectResponse (detectInteropIssues : Bool) (ctx : TransactionContext)
    (response : ResponseAPDU) : Bool × TransactionContext :=
  if !response.isSuccess then
    (false, { ctx with
                errors := ctx.errors ++ [⟨"SELECT", some response.sw⟩]
                state := .ERROR })
  else
    let fciTLV := TLVParser.parse response.data
    let ctx := { ctx with fci := some fciTLV }
    let ctx := ctx.addCardData fciTLV
    let ctx := match TLVParser.findTag fciTLV 0x9F38 with
      | some pdolTag => { ctx with pdol := some (DOLParser.parse pdolTag.value) }
      | none => ctx
    let ctx := match TLVParser.findTag fciTLV 0x9F2A with
      | some kernelId => { ctx with kernel := some (kernelId.value.getD 0 0) }
      | none => ctx
    let ctx := match TLVParser.findTag fciTLV 0x9F6E with
      | some ffi => validateFFI detectInteropIssues ctx ffi
      | none => ctx
    (true, { ctx with state := .INITIATE_APPLICATION_PROCESSING })

/-- `EMVProtocolEngine.parseAFL`: each 4-byte group is
`{sfi: byte0 >> 3 (top five bits), firstRecord, lastRecord,
numODARecords}`. -/
def parseAFL : List Nat → List AFLEntry
  | [] => []
  | a :: rest =>
    ⟨(a &&& 0xF8) >>> 3, rest.getD 0 0, rest.getD 1 0, rest.getD 2 0⟩
      :: parseAFL (rest.drop 3)
termination_by l => l.length
decreasing_by simp [List.length_drop]; omega

/-- `EMVProtocolEngine.processGPOResponse`: raw Format 1 (tag `0x80`) or
constructed Format 2 (tag `0x77`, AIP in tag 82, AFL in tag 94); any
other first byte records an error and fails. -/
def processGPOResponse (ctx : TransactionContext) (response : ResponseAPDU) :
    Bool × TransactionContext :=
  if !response.isSuccess then
    (false, { ctx with
                errors := ctx.errors ++ [⟨"GPO", some response.sw⟩]
                state := .ERROR })
  else
    let gpoData := response.data
    if gpoData.getD 0 0 == 0x80 then
      let length := gpoData.getD 1 0
      let aip := (gpoData.drop 2).take 2
      let afl := (gpoData.drop 4).take (2 + length - 4)
      (true, { ctx with
                 aip := some aip
                 afl := some (parseAFL afl)
                 state := .READ_APPLICATION_DATA })
    else if gpoData.getD 0 0 == 0x77 then
      let tlvData := TLVParser.parse gpoData
      let ctx := ctx.addCardData tlvData
      let ctx := match TLVParser.findTag tlvData 0x82 with
        | some aipTag => { ctx with aip := some aipTag.value }
        | none => ctx
      let ctx := match TLVParser.findTag tlvData 0x94 with
        | some aflTag => { ctx with afl := some (parseAFL aflTag.value) }
        | none => ctx
      (true, { ctx with state := .READ_APPLICATION_DATA })
    else
      (false, { ctx with
                  errors := ctx.errors ++ [⟨"GPO", none⟩]
                  state := .ERROR })

/-- `EMVProtocolEngine.processReadRecordResponse`: a failed read only
records a warning and leaves the state alone. -/
def processReadRecordResponse (detectInteropIssues : Bool) (ctx : TransactionContext)
    (response : ResponseAPDU) (sfi record : Nat) : Bool × TransactionContext :=
  if !response.isSuccess then
    (false, { ctx with warnings := ctx.warnings ++
      [⟨"READ_RECORD", sfi, record, response.sw⟩] })
  else
    let recordTLV := TLVParser.parse response.data
    let ctx := { ctx with records := ctx.records ++ [(sfi, record, recordTLV)] }
    let ctx := ctx.addCardData recordTLV
    let ctx := match TLVParser.findTag recordTLV 0x8C with
      | some cdol1Tag => { ctx with cdol1 := some (DOLParser.parse cdol1Tag.value) }
      | none => ctx
    let ctx := match TLVParser.findTag recordTLV 0x8D with
      | some cdol2Tag => { ctx with cdol2 := some (DOLParser.parse cdol2Tag.value) }
      | none => ctx
    let ctx := match TLVParser.findTag recordTLV 0xDF8101 with
      | some parTag => validatePAR detectInteropIssues ctx parTag
      | none => ctx
    (true, ctx)

/-- `EMVProtocolEngine.processGenACResponse`: Format 1 takes the CID at
offset 2 and `slice(3, 11)` as cryptogram; Format 2 reads tags 9F27 and
9F26; any other first byte is silently ignored and the state still moves
to COMPLETION. -/
def processGenACResponse (ctx : TransactionContext) (response : ResponseAPDU) :
    Bool × TransactionContext :=
  if !response.isSuccess then
    (false, { ctx with
                errors := ctx.errors ++ [⟨"GENERATE_AC", some response.sw⟩]
                state := .ERROR })
  else
    let acData := response.data
    let ctx :=
      if acData.getD 0 0 == 0x80 then
        let cid := acData.getD 2 0
        { ctx with
            cryptogramType := some (cid &&& 0xC0)
            cryptogram := some ((acData.drop 3).take 8) }
      else if acData.getD 0 0 == 0x77 then
        let tlvData := TLVParser.parse acData
        let ctx := ctx.addCardData tlvData
        let ctx := match TLVParser.findTag tlvData 0x9F27 with
          | some cidTag =>
            { ctx with cryptogramType := some (cidTag.value.getD 0 0 &&& 0xC0) }
          | none => ctx
        match TLVParser.findTag tlvData 0x9F26 with
          | some acTag => { ctx with cryptogram := some acTag.value }
          | none => ctx
      else ctx
    (true, { ctx with state := .COMPLETION })

end EMVProtocolEngine


/-- Appending one more interop issue preserves the "only `interopIssues`
grew" shape of a context. -/
theorem recordInteropIssue_shape (c ctx : TransactionContext) (a b : String)
    (h : ∃ t, c = { ctx with interopIssues := ctx.interopIssues ++ t }) :
    ∃ t, c.recordInteropIssue a b
      = { ctx with interopIssues := ctx.interopIssues ++ t } := by
  obtain ⟨t, rfl⟩ := h
  exact ⟨t ++ [⟨a, b, ctx.state⟩],
    by simp [TransactionContext.recordInteropIssue]⟩

/-- The trivial case of the shape: nothing appended yet. -/
theorem ctx_shape_refl (ctx : TransactionContext) :
    ∃ t, ctx = { ctx with interopIssues := ctx.interopIssues ++ t } :=
  ⟨[], by simp⟩

/-- `validateFFI` only ever appends interop issues. -/
theorem validateFFI_shape (d : Bool) (ctx : TransactionContext) (f : TLVObject) :
    ∃ t, EMVProtocolEngine.validateFFI d ctx f
      = { ctx with interopIssues := ctx.interopIssues ++ t } := by
  cases d with
  | false =>
    simp only [EMVProtocolEngine.validateFFI, Bool.not_false, if_true]
    exact ctx_shape_refl ctx
  | true =>
    simp only [EMVProtocolEngine.validateFFI, Bool.not_true, Bool.false_eq_true, if_false]
    split <;> split <;> split <;>
      first
        | exact ctx_shape_refl _
        | exact recordInteropIssue_shape _ _ _ _ (ctx_shape_refl _)
        | exact recordInteropIssue_shape _ _ _ _
            (recordInteropIssue_shape _ _ _ _ (ctx_shape_refl _))
        | exact recordInteropIssue_shape _ _ _ _
            (recordInteropIssue_shape _ _ _ _
              (recordInteropIssue_shape _ _ _ _ (ctx_shape_refl _)))

/-- `validatePAR` only ever appends interop issues. -/
theorem validatePAR_shape (d : Bool) (ctx : TransactionContext) (p : TLVObject) :
    ∃ t, EMVProtocolEngine.validatePAR d ctx p
      = { ctx with interopIssues := ctx.interopIssues ++ t } := by
  cases d with
  | false =>
    simp only [EMVProtocolEngine.validatePAR, Bool.not_false, if_true]
    exact ctx_shape_refl ctx
  | true =>
    simp only [EMVProtocolEngine.validatePAR, Bool.not_true, Bool.false_eq_true, if_false]
    split <;>
      first
        | exact recordInteropIssue_shape _ _ _ _ (ctx_shape_refl _)
        | exact recordInteropIssue_shape _ _ _ _
            (recordInteropIssue_shape _ _ _ _ (ctx_shape_refl _))

/-- `validatePAR` leaves the state unchanged. -/
theorem validatePAR_state (d : Bool) (c : TransactionContext) (p : TLVObject) :
    (EMVProtocolEngine.validatePAR d c p).state = c.state := by
  obtain ⟨t, e⟩ := validatePAR_shape d c p
  rw [e]

/-- **C5**: for every response with a non-success status word,
`processSelectResponse`, `processGPOResponse` and `processGenACResponse`
append one entry to `ctx.errors` and force `ctx.state` to `ERROR`, while
`processReadRecordResponse` appends one entry to `ctx.warnings` and
leaves everything else — the state in particular — unchanged, so the
transaction continues; and no interop-issue detection (`validateFFI`,
`validatePAR`, switched by the `detectInteropIssues` engine option) ever
changes anything but `ctx.interopIssues` — in particular neither the
state nor the boolean result of the engine calls that run it. -/
theorem c5_failure_and_detection_semantics :
    (∀ (d : Bool) (ctx : TransactionContext) (r : ResponseAPDU),
        r.isSuccess = false →
        EMVProtocolEngine.processSelectResponse d ctx r
          = (false, { ctx with
              errors := ctx.errors ++ [⟨"SELECT", some r.sw⟩]
              state := .ERROR }))
    ∧ (∀ (ctx : TransactionContext) (r : ResponseAPDU),
        r.isSuccess = false →
        EMVProtocolEngine.processGPOResponse ctx r
          = (false, { ctx with
              errors := ctx.errors ++ [⟨"GPO", some r.sw⟩]
              state := .ERROR }))
    ∧ (∀ (ctx : TransactionContext) (r : ResponseAPDU),
        r.isSuccess = false →
        EMVProtocolEngine.processGenACResponse ctx r
          = (false, { ctx with
              errors := ctx.errors ++ [⟨"GENERATE_AC", some r.sw⟩]
              state := .ERROR }))
    ∧ (∀ (d : Bool) (ctx : TransactionContext) (r : ResponseAPDU) (sfi record : Nat),
        r.isSuccess = false →
        EMVProtocolEngine.processReadRecordResponse d ctx r sfi record
          = (false, { ctx with
              warnings := ctx.warnings ++ [⟨"READ_RECORD", sfi, record, r.sw⟩] }))
    ∧ (∀ (d : Bool) (ctx : TransactionContext) (f : TLVObject),
        ∃ t, EMVProtocolEngine.validateFFI d ctx f
          = { ctx with interopIssues := ctx.interopIssues ++ t })
    ∧ (∀ (d : Bool) (ctx : TransactionContext) (p : TLVObject),
        ∃ t, EMVProtocolEngine.validatePAR d ctx p
          = { ctx with interopIssues := ctx.interopIssues ++ t })
    ∧ (∀ (ctx : TransactionContext) (r : ResponseAPDU),
        (EMVProtocolEngine.processSelectResponse true ctx r).1
            = (EMVProtocolEngine.processSelectResponse false ctx r).1
          ∧ (EMVProtocolEngine.processSelectResponse true ctx r).2.state
            = (EMVProtocolEngine.processSelectResponse false ctx r).2.state)
    ∧ (∀ (ctx : TransactionContext) (r : ResponseAPDU) (sfi record : Nat),
        (EMVProtocolEngine.processReadRecordResponse true ctx r sfi record).1
            = (EMVProtocolEngine.processReadRecordResponse false ctx r sfi record).1
          ∧ (EMVProtocolEngine.processReadRecordResponse true ctx r sfi record).2.state
            = (EMVProtocolEngine.processReadRecordResponse false ctx r sfi record).2.state) := by
  refine ⟨?_, ?_, ?_, ?_, validateFFI_shape, validatePAR_shape, ?_, ?_⟩
  · intro d ctx r h
    simp [EMVProtocolEngine.processSelectResponse, h]
  · intro ctx r h
    simp [EMVProtocolEngine.processGPOResponse, h]
  · intro ctx r h
    simp [EMVProtocolEngine.processGenACResponse, h]
  · intro d ctx r sfi record h
    simp [EMVProtocolEngine.processReadRecordResponse, h]
  · intro ctx r
    constructor
    · simp only [EMVProtocolEngine.processSelectResponse]
      split <;> rfl
    · simp only [EMVProtocolEngine.processSelectResponse]
      split <;> rfl
  · intro ctx r sfi record
    constructor
    · simp only [EMVProtocolEngine.processReadRecordResponse]
      split <;> rfl
    · simp only [EMVProtocolEngine.processReadRecordResponse]
      split
      · rfl
      · cases TLVParser.findTag (TLVParser.parse r.data) 0xDF8101 with
        | none => rfl
        | some p =>
          simp only []
          rw [validatePAR_state, validatePAR_state]

theorem c5_failure_and_detection_semantics_witness :
    ResponseAPDU.isSuccess ⟨[], 0x6A, 0x82⟩ = false
    ∧ EMVProtocolEngine.processSelectResponse true {} ⟨[], 0x6A, 0x82⟩
        = (false, { ({} : TransactionContext) with
            errors := [⟨"SELECT", some (ResponseAPDU.sw ⟨[], 0x6A, 0x82⟩)⟩]
            state := .ERROR })
    ∧ EMVProtocolEngine.processReadRecordResponse true {} ⟨[], 0x6A, 0x83⟩ 1 1
        = (false, { ({} : TransactionContext) with
            warnings := [⟨"READ_RECORD", 1, 1, ResponseAPDU.sw ⟨[], 0x6A, 0x83⟩⟩] }) :=
  ⟨by decide,
    c5_failure_and_detection_semantics.1 true {} ⟨[], 0x6A, 0x82⟩ (by decide),
    c5_failure_and_detection_semantics.2.2.2.1 true {} ⟨[], 0x6A, 0x83⟩ 1 1 (by decide)⟩

/-- The form-factor whitelist test of `validateFFI`, as arithmetic. -/
theorem contains_iff_le6 (x : Nat) :
    ([0x00, 0x01, 0x02, 0x03, 0x04, 0x05, 0x06].contains x) = true ↔ x ≤ 6 := by
  constructor
  · intro h
    have hx : x ∈ [0, 1, 2, 3, 4, 5, 6] := by simpa using h
    simp at hx
    omega
  · intro h
    interval_cases x <;> decide

/-- **C9** (counterexample): on a 3-byte FFI whose byte 1 has low nibble
7, `validateFFI` records *two* issues (the form-factor check still runs
on short FFIs), and on a 5-byte FFI it records *no* `FFI_LENGTH` issue at
all (the code tests `length < 4`, not `length !== 4`) — against the
claim's "exactly one issue / no form-factor check" and "flags
`FFI_LENGTH` whenever the length is not exactly 4". -/
theorem c9_counterexample :
    (EMVProtocolEngine.validateFFI true {}
        (TLVObject.mk 0x9F6E 3 [0x00, 0x07, 0x00] false [])).interopIssues
      = [⟨"FFI_LENGTH", "WARNING", .IDLE⟩,
         ⟨"FFI_INVALID_FORM_FACTOR", "ERROR", .IDLE⟩]
    ∧ (EMVProtocolEngine.validateFFI true {}
        (TLVObject.mk 0x9F6E 5 [0x00, 0x00, 0x00, 0x00, 0x00] false [])).interopIssues
      = [] :=
  ⟨rfl, rfl⟩

/-- **C9** (amended): when the context's kernel is not C8, `validateFFI`
on a 4-byte FFI whose byte 1 has low nibble 7 records exactly one
`FFI_INVALID_FORM_FACTOR` issue of severity ERROR; on a 3-byte FFI whose
byte 1 has low nibble in {0..6} it records exactly one `FFI_LENGTH`
issue of severity WARNING (the form-factor check still runs on the
3-byte value, but passes); and it flags `FFI_LENGTH` exactly when the
FFI is *shorter* than 4 bytes — never for longer FFIs. -/
theorem c9_ffi_validation_amended (ctx : TransactionContext) (ffiTag : TLVObject)
    (hk : ctx.kernel ≠ some 0x08) :
    (ffiTag.value.length = 4 → ffiTag.value.getD 1 0 &&& 0x0F = 0x07 →
        EMVProtocolEngine.validateFFI true ctx ffiTag
          = { ctx with interopIssues := ctx.interopIssues
              ++ [⟨"FFI_INVALID_FORM_FACTOR", "ERROR", ctx.state⟩] })
    ∧ (ffiTag.value.length = 3 → ffiTag.value.getD 1 0 &&& 0x0F ≤ 6 →
        EMVProtocolEngine.validateFFI true ctx ffiTag
          = { ctx with interopIssues := ctx.interopIssues
              ++ [⟨"FFI_LENGTH", "WARNING", ctx.state⟩] })
    ∧ (ffiTag.value.length < 4 →
        ∃ t, (EMVProtocolEngine.validateFFI true ctx ffiTag).interopIssues
          = ctx.interopIssues ++ ⟨"FFI_LENGTH", "WARNING", ctx.state⟩ :: t)
    ∧ (4 ≤ ffiTag.value.length →
        ∃ t, (EMVProtocolEngine.validateFFI true ctx ffiTag).interopIssues
            = ctx.interopIssues ++ t
          ∧ ∀ i ∈ t, i.issueType ≠ "FFI_LENGTH") := by
  have hc3 : (ctx.kernel == some (0x08 : Nat)) = false := beq_eq_false_iff_ne.mpr hk
  refine ⟨?_, ?_, ?_, ?_⟩
  · intro h4 h7
    have hc1 : ¬ (ffiTag.value.length < 4) := by omega
    have hc2 : (!([0x00, 0x01, 0x02, 0x03, 0x04, 0x05, 0x06].contains
        (ffiTag.value.getD 1 0 &&& 0x0F))) = true := by
      rw [h7]
      decide
    simp only [EMVProtocolEngine.validateFFI, Bool.not_true, Bool.false_eq_true, if_false,
      if_neg hc1, if_pos hc2, TransactionContext.recordInteropIssue, hc3]
  · intro h3 hle
    have hc1 : ffiTag.value.length < 4 := by omega
    have hc2 : (!([0x00, 0x01, 0x02, 0x03, 0x04, 0x05, 0x06].contains
        (ffiTag.value.getD 1 0 &&& 0x0F))) = false := by
      rw [(contains_iff_le6 _).mpr hle]
      decide
    simp only [EMVProtocolEngine.validateFFI, Bool.not_true, Bool.false_eq_true, if_false,
      if_pos hc1, hc2, TransactionContext.recordInteropIssue, hc3]
  · intro hlt
    by_cases h2 : ([0x00, 0x01, 0x02, 0x03, 0x04, 0x05, 0x06].contains
        (ffiTag.value.getD 1 0 &&& 0x0F)) = true
    · have hc2 : (!([0x00, 0x01, 0x02, 0x03, 0x04, 0x05, 0x06].contains
          (ffiTag.value.getD 1 0 &&& 0x0F))) = false := by
        rw [h2]
        decide
      simp only [EMVProtocolEngine.validateFFI, Bool.not_true, Bool.false_eq_true, if_false,
        if_pos hlt, hc2, TransactionContext.recordInteropIssue, hc3]
      exact ⟨[], by simp⟩
    · have hc2 : (!([0x00, 0x01, 0x02, 0x03, 0x04, 0x05, 0x06].contains
          (ffiTag.value.getD 1 0 &&& 0x0F))) = true := by
        rw [Bool.eq_false_iff.mpr h2]
        decide
      simp only [EMVProtocolEngine.validateFFI, Bool.not_true, Bool.false_eq_true, if_false,
        if_pos hlt, if_pos hc2, TransactionContext.recordInteropIssue, hc3]
      exact ⟨[⟨"FFI_INVALID_FORM_FACTOR", "ERROR", ctx.state⟩], by simp⟩
  · intro hge
    have hc1 : ¬ (ffiTag.value.length < 4) := by omega
    by_cases h2 : ([0x00, 0x01, 0x02, 0x03, 0x04, 0x05, 0x06].contains
        (ffiTag.value.getD 1 0 &&& 0x0F)) = true
    · have hc2 : (!([0x00, 0x01, 0x02, 0x03, 0x04, 0x05, 0x06].contains
          (ffiTag.value.getD 1 0 &&& 0x0F))) = false := by
        rw [h2]
        decide
      simp only [EMVProtocolEngine.validateFFI, Bool.not_true, Bool.false_eq_true, if_false,
        if_neg hc1, hc2, TransactionContext.recordInteropIssue, hc3]
      exact ⟨[], by simp⟩
    · have hc2 : (!([0x00, 0x01, 0x02, 0x03, 0x04, 0x05, 0x06].contains
          (ffiTag.value.getD 1 0 &&& 0x0F))) = true := by
        rw [Bool.eq_false_iff.mpr h2]
        decide
      simp only [EMVProtocolEngine.validateFFI, Bool.not_true, Bool.false_eq_true, if_false,
        if_neg hc1, if_pos hc2, TransactionContext.recordInteropIssue, hc3]
      refine ⟨[⟨"FFI_INVALID_FORM_FACTOR", "ERROR", ctx.state⟩], by simp, ?_⟩
      intro i hi
      simp at hi
      subst hi
      show "FFI_INVALID_FORM_FACTOR" ≠ "FFI_LENGTH"
      decide

theorem c9_ffi_validation_amended_witness :
    (({} : TransactionContext).kernel ≠ some 0x08)
    ∧ EMVProtocolEngine.validateFFI true {}
        (TLVObject.mk 0x9F6E 4 [0x00, 0x07, 0x00, 0x00] false [])
      = { ({} : TransactionContext) with
          interopIssues := [⟨"FFI_INVALID_FORM_FACTOR", "ERROR", .IDLE⟩] } :=
  ⟨by decide,
    (c9_ffi_validation_amended {}
      (TLVObject.mk 0x9F6E 4 [0x00, 0x07, 0x00, 0x00] false [])
      (by decide)).1 (by decide) (by decide)⟩

/-- **C10**: a GENERATE AC response with a success status word whose first
data byte is neither `0x80` nor `0x77` records no error, leaves
`ctx.cryptogram`/`ctx.cryptogramType` untouched (null if they were null),
and still moves the state to COMPLETION returning `true` — unlike
`processGPOResponse`, which on an unknown format records a GPO error and
transitions to ERROR returning `false`. -/
theorem c10_genac_unknown_format_completes (ctx : TransactionContext) (r : ResponseAPDU)
    (hs : r.isSuccess = true)
    (h80 : r.data.getD 0 0 ≠ 0x80) (h77 : r.data.getD 0 0 ≠ 0x77)
    (hne : r.data ≠ []) :
    EMVProtocolEngine.processGenACResponse ctx r
        = (true, { ctx with state := .COMPLETION })
    ∧ EMVProtocolEngine.processGPOResponse ctx r
        = (false, { ctx with
            errors := ctx.errors ++ [⟨"GPO", none⟩]
            state := .ERROR }) := by
  have hb80 : (r.data.getD 0 0 == 0x80) = false := beq_eq_false_iff_ne.mpr h80
  have hb77 : (r.data.getD 0 0 == 0x77) = false := beq_eq_false_iff_ne.mpr h77
  constructor
  · simp only [EMVProtocolEngine.processGenACResponse, hs, Bool.not_true,
      Bool.false_eq_true, if_false, hb80, hb77]
  · simp only [EMVProtocolEngine.processGPOResponse, hs, Bool.not_true,
      Bool.false_eq_true, if_false, hb80, hb77]

theorem c10_genac_unknown_format_completes_witness :
    ResponseAPDU.isSuccess ⟨[0x6F, 0x00], 0x90, 0x00⟩ = true
    ∧ EMVProtocolEngine.processGenACResponse {} ⟨[0x6F, 0x00], 0x90, 0x00⟩
        = (true, { ({} : TransactionContext) with state := .COMPLETION })
    ∧ EMVProtocolEngine.processGPOResponse {} ⟨[0x6F, 0x00], 0x90, 0x00⟩
        = (false, { ({} : TransactionContext) with
            errors := [⟨"GPO", none⟩]
            state := .ERROR }) :=
  ⟨by decide,
    (c10_genac_unknown_format_completes {} ⟨[0x6F, 0x00], 0x90, 0x00⟩
      (by decide) (by decide) (by decide) (by decide)).1,
    (c10_genac_unknown_format_completes {} ⟨[0x6F, 0x00], 0x90, 0x00⟩
      (by decide) (by decide) (by decide) (by decide)).2⟩

/-- **C4**: on a success Format 1 GENERATE AC response with byte layout
`80 LL <CID 1><ATC 2><AC 8>` the code does set `ctx.cryptogramType` to the
CID's top two bits, but it sets `ctx.cryptogram` to `acData.slice(3, 11)`
— the two ATC bytes followed by only the first six AC bytes — instead of
the AC bytes after CID and ATC; Format 2 with the same CID and AC yields
the true AC, so the two formats disagree on the same data, contradicting
the claim.  Input: LL = 0x0B, CID = 0x40, ATC = 0001,
AC = AABBCCDDEEFF1122. -/
theorem c4_genac_format1_cryptogram_bug :
    (EMVProtocolEngine.processGenACResponse {}
        ⟨[0x80, 0x0B, 0x40, 0x00, 0x01, 0xAA, 0xBB, 0xCC, 0xDD, 0xEE, 0xFF, 0x11, 0x22],
          0x90, 0x00⟩).2.cryptogramType = some 0x40
    ∧ (EMVProtocolEngine.processGenACResponse {}
        ⟨[0x80, 0x0B, 0x40, 0x00, 0x01, 0xAA, 0xBB, 0xCC, 0xDD, 0xEE, 0xFF, 0x11, 0x22],
          0x90, 0x00⟩).2.cryptogram
      = some [0x00, 0x01, 0xAA, 0xBB, 0xCC, 0xDD, 0xEE, 0xFF]
    ∧ (EMVProtocolEngine.processGenACResponse {}
        ⟨[0x77, 0x0F, 0x9F, 0x27, 0x01, 0x40, 0x9F, 0x26, 0x08,
          0xAA, 0xBB, 0xCC, 0xDD, 0xEE, 0xFF, 0x11, 0x22], 0x90, 0x00⟩).2.cryptogram
      = some [0xAA, 0xBB, 0xCC, 0xDD, 0xEE, 0xFF, 0x11, 0x22]
    ∧ ([0x00, 0x01, 0xAA, 0xBB, 0xCC, 0xDD, 0xEE, 0xFF] : List Nat)
      ≠ [0xAA, 0xBB, 0xCC, 0xDD, 0xEE, 0xFF, 0x11, 0x22] :=
  ⟨rfl, rfl, rfl, by decide⟩

/-- The Format 2 GPO response body parses to a `77` template containing
the AIP under tag 82 and the AFL under tag 94. -/
theorem parse_gpo_format2 (a1 a2 : Nat) (afl : List Nat)
    (ha1 : a1 < 256) (ha2 : a2 < 256) (hb : ∀ b ∈ afl, b < 256)
    (hlen : afl.length ≤ 121) :
    TLVParser.parse
        (0x77 :: (6 + afl.length) :: 0x82 :: 0x02 :: a1 :: a2 :: 0x94 :: afl.length :: afl)
      = [TLVObject.mk 0x77 (6 + afl.length)
          (0x82 :: 0x02 :: a1 :: a2 :: 0x94 :: afl.length :: afl) true
          [TLVObject.mk 0x82 2 [a1, a2] false [],
           TLVObject.mk 0x94 afl.length afl false []]] := by
  have e94 : TLVBuilder.encodeLength afl.length = [afl.length] := by
    unfold TLVBuilder.encodeLength
    rw [if_pos (by omega)]
  have e2 : TLVBuilder.encodeLength 2 = [2] := rfl
  have hcs : build [BNode.prim [0x82] [a1, a2], BNode.prim [0x94] afl]
      = 0x82 :: 0x02 :: a1 :: a2 :: 0x94 :: afl.length :: afl := by
    simp only [build, buildNode, e94, List.append_nil]
    simp [e2]
  have hlencs : (build [BNode.prim [0x82] [a1, a2], BNode.prim [0x94] afl]).length
      = 6 + afl.length := by
    rw [hcs]
    simp
    omega
  have eouter : TLVBuilder.encodeLength
      (build [BNode.prim [0x82] [a1, a2], BNode.prim [0x94] afl]).length
      = [6 + afl.length] := by
    rw [hlencs]
    unfold TLVBuilder.encodeLength
    rw [if_pos (by omega)]
  have hbuild : build [BNode.cons [0x77] [BNode.prim [0x82] [a1, a2], BNode.prim [0x94] afl]]
      = 0x77 :: (6 + afl.length) :: 0x82 :: 0x02 :: a1 :: a2 :: 0x94 :: afl.length :: afl := by
    rw [build, buildNode, eouter, hcs, build]
    simp
  have hvalid : validList
      [BNode.cons [0x77] [BNode.prim [0x82] [a1, a2], BNode.prim [0x94] afl]] = true := by
    simp [validList, validNode, validTagBytes, tagValue, hlencs, List.all_eq_true,
      ha1, ha2, TLVParser.isConstructedTag]
    repeat' apply And.intro
    all_goals first
      | decide
      | omega
      | exact fun x hx => hb x hx
  have h2 := parse_build _ hvalid []
  rw [hbuild] at h2
  simp only [List.append_nil, parse_nil] at h2
  rw [h2]
  simp [mkList, mkNode, hcs, hlencs, tagValue]
  omega

/-- **C3**: a Format 1 GPO response (`80 LL <AIP 2 bytes><AFL N bytes>`)
and a Format 2 response (tag `77` containing tag 82 = AIP, tag 94 = AFL)
carrying the same AIP and AFL and a success status word produce identical
semantic results: both succeed, populate `ctx.aip` with the same two AIP
bytes and `ctx.afl` with the same parsed AFL entries, and transition to
`READ_APPLICATION_DATA`.  (Short-form TLV lengths, hence
`afl.length ≤ 121`.) -/
theorem c3_gpo_format_equivalence (ctx : TransactionContext) (a1 a2 : Nat) (afl : List Nat)
    (s1 s2 : Nat)
    (ha1 : a1 < 256) (ha2 : a2 < 256) (hb : ∀ b ∈ afl, b < 256)
    (hlen : afl.length ≤ 121)
    (hsucc : SW.isSuccess ((s1 <<< 8) ||| s2) = true) :
    EMVProtocolEngine.processGPOResponse ctx
        ⟨0x80 :: (2 + afl.length) :: a1 :: a2 :: afl, s1, s2⟩
      = (true, { ctx with
          aip := some [a1, a2]
          afl := some (EMVProtocolEngine.parseAFL afl)
          state := .READ_APPLICATION_DATA })
    ∧ ((EMVProtocolEngine.processGPOResponse ctx
          ⟨0x77 :: (6 + afl.length) :: 0x82 :: 0x02 :: a1 :: a2 :: 0x94 :: afl.length :: afl,
            s1, s2⟩).1 = true
      ∧ (EMVProtocolEngine.processGPOResponse ctx
          ⟨0x77 :: (6 + afl.length) :: 0x82 :: 0x02 :: a1 :: a2 :: 0x94 :: afl.length :: afl,
            s1, s2⟩).2.aip = some [a1, a2]
      ∧ (EMVProtocolEngine.processGPOResponse ctx
          ⟨0x77 :: (6 + afl.length) :: 0x82 :: 0x02 :: a1 :: a2 :: 0x94 :: afl.length :: afl,
            s1, s2⟩).2.afl = some (EMVProtocolEngine.parseAFL afl)
      ∧ (EMVProtocolEngine.processGPOResponse ctx
          ⟨0x77 :: (6 + afl.length) :: 0x82 :: 0x02 :: a1 :: a2 :: 0x94 :: afl.length :: afl,
            s1, s2⟩).2.state = .READ_APPLICATION_DATA) := by
  have harith : 2 + (2 + afl.length) - 4 = afl.length := by omega
  have hsucc1 : ResponseAPDU.isSuccess
      ⟨0x80 :: (2 + afl.length) :: a1 :: a2 :: afl, s1, s2⟩ = true := hsucc
  have hsucc2 : ResponseAPDU.isSuccess
      ⟨0x77 :: (6 + afl.length) :: 0x82 :: 0x02 :: a1 :: a2 :: 0x94 :: afl.length :: afl,
        s1, s2⟩ = true := hsucc
  have hp := parse_gpo_format2 a1 a2 afl ha1 ha2 hb hlen
  have hfmt2 : EMVProtocolEngine.processGPOResponse ctx
      ⟨0x77 :: (6 + afl.length) :: 0x82 :: 0x02 :: a1 :: a2 :: 0x94 :: afl.length :: afl,
        s1, s2⟩
      = (true, { ({ ({ (ctx.addCardData
            [TLVObject.mk 0x77 (6 + afl.length)
              (0x82 :: 0x02 :: a1 :: a2 :: 0x94 :: afl.length :: afl) true
              [TLVObject.mk 0x82 2 [a1, a2] false [],
               TLVObject.mk 0x94 afl.length afl false []]]) with
            aip := some [a1, a2] }) with
            afl := some (EMVProtocolEngine.parseAFL afl) }) with
            state := .READ_APPLICATION_DATA }) := by
    simp only [EMVProtocolEngine.processGPOResponse, hsucc2, Bool.not_true,
      Bool.false_eq_true, if_false]
    rw [hp]
    simp [TLVParser.findTag, TLVParser.findTagVisit, TLVObject.value]
  refine ⟨?_, ?_, ?_, ?_, ?_⟩
  · simp only [EMVProtocolEngine.processGPOResponse, hsucc1, Bool.not_true,
      Bool.false_eq_true, if_false]
    simp [harith, List.take_length]
  · rw [hfmt2]
  · rw [hfmt2]
  · rw [hfmt2]
  · rw [hfmt2]

theorem c3_gpo_format_equivalence_witness :
    SW.isSuccess ((0x90 <<< 8) ||| 0x00) = true
    ∧ EMVProtocolEngine.processGPOResponse {}
        ⟨[0x80, 0x06, 0x39, 0x00, 0x08, 0x01, 0x01, 0x00], 0x90, 0x00⟩
      = (true, { ({} : TransactionContext) with
          aip := some [0x39, 0x00]
          afl := some (EMVProtocolEngine.parseAFL [0x08, 0x01, 0x01, 0x00])
          state := .READ_APPLICATION_DATA }) :=
  ⟨by decide,
    (c3_gpo_format_equivalence {} 0x39 0x00 [0x08, 0x01, 0x01, 0x00] 0x90 0x00
      (by decide) (by decide) (by decide) (by decide) (by decide)).1⟩
